import Mathlib

/-!
Verification of the synthetic e-commerce event generators
(`src/data_generation/backfill_events.py`, `src/data_generation/stream_events.py`).

The Python code is shallowly embedded: every call to the `random` module is
replaced by a field of an explicit oracle record, consumed exactly where the
Python code draws it.  `random.choice(l)` (a uniformly chosen valid index) is
modelled by an arbitrary natural number reduced modulo `l.length`;
`random.randint(a, b)` (inclusive) is modelled by `a + draw % (b - a + 1)`;
`random.random()` (a float in `[0, 1)`) and `random.uniform(0.7, 0.9)` are
modelled by rational oracle fields (the `uniform` field is constrained to its
range where a claim needs it).  Timestamps are integers counting seconds;
decimal prices are rationals.  The Python dict keys deleted when `None` are
`Option` fields with value `none`.
-/

/-- The six event type strings used by the two generators. -/
inductive EventType where
  | product_view
  | add_to_cart
  | add_to_cart_failure
  | purchase
  | submit_review
  | return_item
deriving DecidableEq, Repr

/-- One row of `products.csv` as read by `csv.DictReader` (all CSV cells are
strings; the numeric cells are modelled by their parsed values, which is how
the generators consume them via `float(...)`).  `in_stock` stays a string
because both generators compare it with the literal `'True'`. -/
structure Product where
  product_id : String
  product_name : String
  category : String
  regular_price : ℚ
  avg_rating : ℚ
  review_count : ℕ
  in_stock : String
deriving DecidableEq, Repr

/-- The event payload after the `None`-dropping dict comprehension in
`_create_event`: a key whose value was `None` is an `Option` field holding
`none` (absent on the wire), every other field is always present. -/
structure Event where
  event_id : String
  event_timestamp : ℤ
  user_id : String
  session_id : String
  event_type : EventType
  product_id : String
  on_sale : Bool
  sale_price : Option ℚ
  quantity : Option ℤ
  rating : Option ℤ
  source : String
deriving DecidableEq, Repr

/-- `random.choice(l)`: an arbitrary oracle index is reduced modulo the
length, so every valid position is reachable; the default is only used for
`l = []`, where Python would raise. -/
def choiceD {α : Type} (l : List α) (i : ℕ) (d : α) : α :=
  l.getD (i % l.length) d

/-- Python 3 `round(q, 2)`: round half to even at the second decimal. -/
def roundHalfEven (q : ℚ) : ℤ :=
  if Int.fract q = 1/2 then (if ⌊q⌋ % 2 = 0 then ⌊q⌋ else ⌊q⌋ + 1) else round q

/-- Round a price to 2 decimal places, as `round(x, 2)` does. -/
def round2 (q : ℚ) : ℚ :=
  (roundHalfEven (q * 100) : ℚ) / 100

/-- The last `c` entries of a list. -/
def suffixKeep {α : Type} (c : ℕ) (l : List α) : List α :=
  l.drop (l.length - c)

/-- `collections.deque(maxlen := c).append`: keep only the last `c` entries. -/
def dequeAppend {α : Type} (c : ℕ) (l : List α) (x : α) : List α :=
  (l ++ [x]).drop ((l ++ [x]).length - c)

/-- `random.sample(population, k)`: `k` positions are chosen (distinct in
Python); the model keeps only what the claims rely on — the result is a list
of at most `k` elements of the population, in an oracle-chosen order. -/
def sampleList {α : Type} (l : List α) (k : ℕ) (idxs : List ℕ) : List α :=
  (idxs.filterMap (fun i => l[i]?)).take k

/-- The randomness one `_create_event` call consumes, in drawing order. -/
structure EventR where
  /-- `uuid.uuid4()` for the `event_id`. -/
  eventUuid : ℕ
  /-- `random.random()` compared with `0.25` for `on_sale`. -/
  onSaleDraw : ℚ
  /-- the value returned by `random.uniform(0.7, 0.9)`. -/
  saleFactor : ℚ
  /-- `random.randint(1, 3)` (backfill quantity), as `1 + quantityDraw % 3`. -/
  quantityDraw : ℕ
  /-- `random.randint(1, 5)` (rating), as `1 + ratingDraw % 5`. -/
  ratingDraw : ℕ
deriving Repr

/-- `random.uniform(0.7, 0.9)` only returns values inside its range. -/
def EventR.SaleWF (r : EventR) : Prop :=
  7/10 ≤ r.saleFactor ∧ r.saleFactor ≤ 9/10

/-- `_create_event` of `backfill_events.py` (lines 100-120), after the
`None`-dropping comprehension. -/
def createEventB (sid uid src : String) (et : EventType) (p : Product)
    (ts : ℤ) (r : EventR) : Event :=
  let on_sale : Bool := decide (r.onSaleDraw < 1/4)
  let sale_price :=
    if on_sale then round2 (p.regular_price * r.saleFactor) else p.regular_price
  let quantity : ℤ :=
    if et = .purchase ∨ et = .add_to_cart then (1 + r.quantityDraw % 3 : ℕ)
    else if et = .return_item then -1 else 1
  { event_id := "evt-" ++ toString r.eventUuid
    event_timestamp := ts
    user_id := uid
    session_id := sid
    event_type := et
    product_id := p.product_id
    on_sale := on_sale
    sale_price :=
      if et = .add_to_cart ∨ et = .purchase ∨ et = .return_item
      then some sale_price else none
    quantity := some quantity
    rating := if et = .submit_review then some (1 + r.ratingDraw % 5 : ℕ) else none
    source := src }

/-- `_create_event` of `stream_events.py` (lines 125-144); the timestamp is
`datetime.now()`, passed in as `now`, and the quantity is `-1` for returns
and `1` for every other event type. -/
def createEventS (sid uid src : String) (et : EventType) (p : Product)
    (now : ℤ) (r : EventR) : Event :=
  let on_sale : Bool := decide (r.onSaleDraw < 1/4)
  let sale_price :=
    if on_sale then round2 (p.regular_price * r.saleFactor) else p.regular_price
  { event_id := "evt-" ++ toString r.eventUuid
    event_timestamp := now
    user_id := uid
    session_id := sid
    event_type := et
    product_id := p.product_id
    on_sale := on_sale
    sale_price :=
      if et = .add_to_cart ∨ et = .purchase ∨ et = .return_item
      then some sale_price else none
    quantity := some (if et = .return_item then -1 else 1)
    rating := if et = .submit_review then some (1 + r.ratingDraw % 5 : ℕ) else none
    source := src }

/-- The source list of `backfill_events.py` line 63. -/
def backfillSources : List String :=
  ["google", "facebook", "email", "direct"]

/-- The source list of `stream_events.py` line 72. -/
def streamSources : List String :=
  ["google", "facebook", "email", "direct", "organic_search"]

/-- Placeholder product for the unreachable empty-list branches of `getD`. -/
def dummyProduct : Product :=
  { product_id := ""
    product_name := ""
    category := ""
    regular_price := 0
    avg_rating := 0
    review_count := 0
    in_stock := "" }

/-! ## The backfill session generator (`backfill_events.py`, lines 50-98) -/

/-- The randomness one iteration of the backfill browsing loop consumes. -/
structure BViewR where
  /-- index for `random.choice(product_catalog)`. -/
  productIdx : ℕ
  /-- `random.randint(10, 60)` for the stagger, as `10 + staggerDraw % 51`. -/
  staggerDraw : ℕ
  /-- `random.random()` compared with `0.40`. -/
  cartDraw : ℚ
  /-- randomness of the `product_view` event. -/
  viewR : EventR
  /-- randomness of the `add_to_cart` event. -/
  cartR : EventR
deriving Repr

/-- All the randomness one `generate_user_session` call of
`backfill_events.py` can consume, field order following drawing order. -/
structure BSessionR where
  /-- `uuid.uuid4()` for the session id. -/
  sessionUuid : ℕ
  /-- `random.randint(1, 250)` for the user id, as `1 + userNumDraw % 250`. -/
  userNumDraw : ℕ
  /-- index for `random.choice` over the source list. -/
  sourceIdx : ℕ
  /-- `random.randint(1, 10)` view count, as `1 + numViewsDraw % 10`. -/
  numViewsDraw : ℕ
  /-- per-iteration randomness of the browsing loop. -/
  views : ℕ → BViewR
  /-- `random.random()` compared with `0.30` for the checkout decision. -/
  checkoutDraw : ℚ
  /-- `random.randint(1, len(cart))`, as `1 + buyCountDraw % cart.length`. -/
  buyCountDraw : ℕ
  /-- positions chosen by `random.sample(cart, k)`. -/
  sampleIdxs : List ℕ
  /-- `random.randint(5, 15)` purchase minute offsets, as `5 + _ % 11`. -/
  purchaseMins : ℕ → ℕ
  /-- randomness of each `purchase` event. -/
  purchaseR : ℕ → EventR
  /-- `random.random()` compared with `0.08` per purchased item. -/
  returnDraws : ℕ → ℚ
  /-- `random.randint(1, 5)` return day offsets, as `1 + _ % 5`. -/
  returnDays : ℕ → ℕ
  /-- randomness of each `return_item` event. -/
  returnR : ℕ → EventR

/-- `session-{uuid}` chosen at the top of the backfill session. -/
def backfillSid (r : BSessionR) : String :=
  "session-" ++ toString r.sessionUuid

/-- `user-{randint(1, 250)}` chosen at the top of the backfill session. -/
def backfillUid (r : BSessionR) : String :=
  "user-" ++ toString (1 + r.userNumDraw % 250)

/-- `random.choice(['google', 'facebook', 'email', 'direct'])`. -/
def backfillSrc (r : BSessionR) : String :=
  choiceD backfillSources r.sourceIdx "google"

/-- Iteration `i` of the backfill browsing loop: emit a `product_view` at the
staggered timestamp, then with probability 0.40 attempt an add-to-cart, which
succeeds (cart append plus `add_to_cart` event) only when `in_stock == 'True'`
and otherwise emits nothing.  Returns (events, cart additions). -/
def backfillViewStep (catalog : List Product) (sid uid src : String) (ts : ℤ)
    (i : ℕ) (v : BViewR) : List Event × List Product :=
  let product := choiceD catalog v.productIdx dummyProduct
  let event_ts := ts + (i : ℤ) * (10 + (v.staggerDraw % 51 : ℕ) : ℤ)
  let viewEv := createEventB sid uid src .product_view product event_ts v.viewR
  if v.cartDraw < 2/5 then
    if product.in_stock = "True" then
      ([viewEv, createEventB sid uid src .add_to_cart product event_ts v.cartR],
        [product])
    else ([viewEv], [])
  else ([viewEv], [])

/-- The backfill browsing loop, `for i in range(n)`, accumulating the emitted
events and the cart in iteration order. -/
def backfillViews (catalog : List Product) (sid uid src : String) (ts : ℤ)
    (vr : ℕ → BViewR) : ℕ → List Event × List Product
  | 0 => ([], [])
  | n + 1 =>
    let prev := backfillViews catalog sid uid src ts vr n
    let step := backfillViewStep catalog sid uid src ts n (vr n)
    (prev.1 ++ step.1, prev.2 ++ step.2)

/-- The backfill checkout loop: one `purchase` event per sampled item, each at
`session_timestamp + randint(5, 15)` minutes; `j` is the loop index used to
address the per-item randomness. -/
def backfillPurchases (sid uid src : String) (ts : ℤ) (pm : ℕ → ℕ)
    (pr : ℕ → EventR) : List Product → ℕ → List Event
  | [], _ => []
  | item :: rest, j =>
    createEventB sid uid src .purchase item
        (ts + 60 * (5 + (pm j % 11 : ℕ) : ℤ)) (pr j)
      :: backfillPurchases sid uid src ts pm pr rest (j + 1)

/-- The backfill return loop: each purchased item is returned with probability
0.08, at `session_timestamp + randint(1, 5)` days. -/
def backfillReturns (sid uid src : String) (ts : ℤ) (rd : ℕ → ℚ)
    (rdays : ℕ → ℕ) (rr : ℕ → EventR) : List Product → ℕ → List Event
  | [], _ => []
  | item :: rest, j =>
    (if rd j < 2/25 then
      [createEventB sid uid src .return_item item
        (ts + 86400 * (1 + (rdays j % 5 : ℕ) : ℤ)) (rr j)]
    else [])
      ++ backfillReturns sid uid src ts rd rdays rr rest (j + 1)

/-- The `(events, cart)` pair after the backfill browsing loop. -/
def backfillVres (catalog : List Product) (r : BSessionR) (ts : ℤ) :
    List Event × List Product :=
  backfillViews catalog (backfillSid r) (backfillUid r) (backfillSrc r) ts
    r.views (1 + r.numViewsDraw % 10)

/-- `purchased_items` of the backfill session: when the cart is non-empty and
the 0.30 checkout roll succeeds, `random.sample(cart, randint(1, len(cart)))`,
else empty. -/
def backfillPurchased (catalog : List Product) (r : BSessionR) (ts : ℤ) :
    List Product :=
  let cart := (backfillVres catalog r ts).2
  if cart ≠ [] ∧ r.checkoutDraw < 3/10 then
    sampleList cart (1 + r.buyCountDraw % cart.length) r.sampleIdxs
  else []

/-- `generate_user_session` of `backfill_events.py`: browsing events, then
purchase events, then return events, in emission order. -/
def backfillSession (catalog : List Product) (r : BSessionR) (ts : ℤ) :
    List Event :=
  (backfillVres catalog r ts).1
    ++ backfillPurchases (backfillSid r) (backfillUid r) (backfillSrc r) ts
        r.purchaseMins r.purchaseR (backfillPurchased catalog r ts) 0
    ++ backfillReturns (backfillSid r) (backfillUid r) (backfillSrc r) ts
        r.returnDraws r.returnDays r.returnR (backfillPurchased catalog r ts) 0

/-! ## The streaming session generator (`stream_events.py`, lines 64-123) -/

/-- An entry of `recent_user_activity`: a `(user_id, abandoned product)` pair. -/
def RepeatEntry : Type := String × Product

/-- The randomness one iteration of the streaming browsing loop consumes. -/
structure SViewR where
  /-- index for `random.choice(product_catalog)`. -/
  productIdx : ℕ
  /-- `random.random()` compared with `PROB_ADD_TO_CART = 0.40`. -/
  cartDraw : ℚ
  /-- randomness of the `product_view` event. -/
  viewR : EventR
  /-- randomness of the `add_to_cart` or `add_to_cart_failure` event. -/
  cartR : EventR
deriving Repr

/-- All the randomness one `generate_user_session` call of
`stream_events.py` can consume, field order following drawing order. -/
structure SSessionR where
  /-- `uuid.uuid4()` for the session id. -/
  sessionUuid : ℕ
  /-- index for `random.choice` over the five-element source list. -/
  sourceIdx : ℕ
  /-- `random.random()` compared with `PROB_REPEAT_USER = 0.25`. -/
  repeatDraw : ℚ
  /-- index for `random.choice(recent_user_activity)`. -/
  memIdx : ℕ
  /-- `random.random()` compared with `0.50` (repeat-purchase shortcut). -/
  buyDraw : ℚ
  /-- randomness of the shortcut `purchase` event. -/
  repeatEv : EventR
  /-- `random.randint(1, 500)` for a new user id, as `1 + _ % 500`. -/
  userNumDraw : ℕ
  /-- `random.randint(1, 10)` view count, as `1 + _ % 10`. -/
  numViewsDraw : ℕ
  /-- per-iteration randomness of the browsing loop. -/
  views : ℕ → SViewR
  /-- index for `random.choice(cart)` recorded into Repeat-User Memory. -/
  abandonIdx : ℕ
  /-- `random.random()` compared with `PROB_CHECKOUT = 0.30`. -/
  checkoutDraw : ℚ
  /-- `random.randint(1, len(cart))`, as `1 + _ % cart.length`. -/
  buyCountDraw : ℕ
  /-- positions chosen by `random.sample(cart, k)`. -/
  sampleIdxs : List ℕ
  /-- randomness of each `purchase` event. -/
  purchaseR : ℕ → EventR
  /-- `random.random()` compared with `0.25` for the review decision. -/
  reviewDraw : ℚ
  /-- index for `random.choice(purchased_items)`. -/
  reviewIdx : ℕ
  /-- randomness of the `submit_review` event. -/
  reviewEv : EventR
  /-- `random.random()` compared with `PROB_RETURN_ITEM = 0.08` per item. -/
  returnDraws : ℕ → ℚ
  /-- randomness of each `return_item` event. -/
  returnR : ℕ → EventR

/-- `session-{uuid}` chosen at the top of the streaming session. -/
def streamSid (r : SSessionR) : String :=
  "session-" ++ toString r.sessionUuid

/-- `random.choice(['google', 'facebook', 'email', 'direct', 'organic_search'])`. -/
def streamSrc (r : SSessionR) : String :=
  choiceD streamSources r.sourceIdx "google"

/-- Iteration of the streaming browsing loop: emit a `product_view`, then with
probability 0.40 attempt an add-to-cart; on `in_stock == 'True'` the product
is carted and `add_to_cart` emitted, otherwise `add_to_cart_failure` is
emitted.  Returns (events, cart additions). -/
def streamViewStep (catalog : List Product) (sid uid src : String) (now : ℤ)
    (v : SViewR) : List Event × List Product :=
  let product := choiceD catalog v.productIdx dummyProduct
  let viewEv := createEventS sid uid src .product_view product now v.viewR
  if v.cartDraw < 2/5 then
    if product.in_stock = "True" then
      ([viewEv, createEventS sid uid src .add_to_cart product now v.cartR],
        [product])
    else
      ([viewEv, createEventS sid uid src .add_to_cart_failure product now v.cartR],
        [])
  else ([viewEv], [])

/-- The streaming browsing loop, accumulating events and cart in order. -/
def streamViews (catalog : List Product) (sid uid src : String) (now : ℤ)
    (vr : ℕ → SViewR) : ℕ → List Event × List Product
  | 0 => ([], [])
  | n + 1 =>
    let prev := streamViews catalog sid uid src now vr n
    let step := streamViewStep catalog sid uid src now (vr n)
    (prev.1 ++ step.1, prev.2 ++ step.2)

/-- The streaming checkout loop: one `purchase` event per sampled item. -/
def streamPurchases (sid uid src : String) (now : ℤ) (pr : ℕ → EventR) :
    List Product → ℕ → List Event
  | [], _ => []
  | item :: rest, j =>
    createEventS sid uid src .purchase item now (pr j)
      :: streamPurchases sid uid src now pr rest (j + 1)

/-- The streaming return loop over the purchased items. -/
def streamReturns (sid uid src : String) (now : ℤ) (rd : ℕ → ℚ)
    (rr : ℕ → EventR) : List Product → ℕ → List Event
  | [], _ => []
  | item :: rest, j =>
    (if rd j < 2/25 then
      [createEventS sid uid src .return_item item now (rr j)]
    else [])
      ++ streamReturns sid uid src now rd rr rest (j + 1)

/-- The `(events, cart)` pair after the streaming browsing loop. -/
def streamVres (catalog : List Product) (sid uid src : String) (now : ℤ)
    (r : SSessionR) : List Event × List Product :=
  streamViews catalog sid uid src now r.views (1 + r.numViewsDraw % 10)

/-- `purchased_items` of the streaming session: on a successful 0.30 checkout
roll, `random.sample(cart, randint(1, len(cart)))`, else empty (the roll is
only reached with a non-empty cart; with an empty cart both branches are
empty, as in the code). -/
def streamPurchased (cart : List Product) (r : SSessionR) : List Product :=
  if r.checkoutDraw < 3/10 then
    sampleList cart (1 + r.buyCountDraw % cart.length) r.sampleIdxs
  else []

/-- The review step: if anything was purchased, with probability 0.25 one
`submit_review` event for a random purchased item. -/
def streamReviewEvs (sid uid src : String) (now : ℤ) (r : SSessionR)
    (purchased : List Product) : List Event :=
  if purchased ≠ [] ∧ r.reviewDraw < 1/4 then
    [createEventS sid uid src .submit_review
      (choiceD purchased r.reviewIdx dummyProduct) now r.reviewEv]
  else []

/-- The body of the streaming session after the user id is fixed: browsing,
then — when the cart is non-empty — recording `(user_id, random cart item)`
into Repeat-User Memory, the 0.30 checkout roll, the 0.25 review roll and the
per-item return rolls.  Returns the emitted events and the updated memory. -/
def streamBody (catalog : List Product) (mem : List (String × Product))
    (sid uid src : String) (r : SSessionR) (now : ℤ) :
    List Event × List (String × Product) :=
  let vres := streamVres catalog sid uid src now r
  let cart := vres.2
  if cart ≠ [] then
    let purchased := streamPurchased cart r
    (vres.1 ++ streamPurchases sid uid src now r.purchaseR purchased 0
      ++ streamReviewEvs sid uid src now r purchased
      ++ streamReturns sid uid src now r.returnDraws r.returnR purchased 0,
     dequeAppend 100 mem (uid, choiceD cart r.abandonIdx dummyProduct))
  else (vres.1, mem)

/-- Whether this streaming session takes the repeat-purchase shortcut: the
memory is non-empty, the 0.25 repeat roll succeeds and the 0.50 buy roll
succeeds. -/
def shortcutTaken (mem : List (String × Product)) (r : SSessionR) : Prop :=
  mem ≠ [] ∧ r.repeatDraw < 1/4 ∧ r.buyDraw < 1/2

instance (mem : List (String × Product)) (r : SSessionR) :
    Decidable (shortcutTaken mem r) := by
  unfold shortcutTaken; infer_instance

/-- `generate_user_session` of `stream_events.py`: with the deque non-empty
and probability 0.25 the session belongs to a remembered user, who with
probability 0.50 just purchases the abandoned product and leaves; otherwise
the remembered (or fresh) user browses as usual.  Returns the events and the
updated Repeat-User Memory. -/
def streamSession (catalog : List Product) (mem : List (String × Product))
    (r : SSessionR) (now : ℤ) : List Event × List (String × Product) :=
  let sid := streamSid r
  let src := streamSrc r
  if mem ≠ [] ∧ r.repeatDraw < 1/4 then
    let ent := choiceD mem r.memIdx ("", dummyProduct)
    if r.buyDraw < 1/2 then
      ([createEventS sid ent.1 src .purchase ent.2 now r.repeatEv], mem)
    else streamBody catalog mem sid ent.1 src r now
  else
    streamBody catalog mem sid ("user-" ++ toString (1 + r.userNumDraw % 500))
      src r now

/-! ## The backfill scheduler (`backfill_events.py`, `__main__`, lines 155-160) -/

/-- `AVG_SESSIONS_PER_DAY`. -/
def AVG_SESSIONS_PER_DAY : ℕ := 250

/-- `sessions_multiplier = 1.5 if current_day.weekday() >= 4 else 1.0`
(Python weekdays: Monday = 0 … Sunday = 6). -/
def sessionsMultiplier (weekday : ℕ) : ℚ :=
  if 4 ≤ weekday then 3/2 else 1

/-- Lower endpoint of the `random.randint` range for the day's session count:
`int(AVG_SESSIONS_PER_DAY * 0.7 * sessions_multiplier)`. -/
def sessionCountLo (weekday : ℕ) : ℤ :=
  ⌊(AVG_SESSIONS_PER_DAY : ℚ) * (7/10) * sessionsMultiplier weekday⌋

/-- Upper endpoint of the `random.randint` range for the day's session count:
`int(AVG_SESSIONS_PER_DAY * 1.3 * sessions_multiplier)`. -/
def sessionCountHi (weekday : ℕ) : ℤ :=
  ⌊(AVG_SESSIONS_PER_DAY : ℚ) * (13/10) * sessionsMultiplier weekday⌋

/-! ## Concrete inputs used to evaluate the generators -/

/-- A concrete in-stock catalog row. -/
def sampleProduct : Product :=
  { product_id := "SKU-LAP-0001"
    product_name := "Acme Pro 100"
    category := "Laptops"
    regular_price := 100
    avg_rating := 4
    review_count := 10
    in_stock := "True" }

/-- A concrete out-of-stock catalog row. -/
def sampleProductOut : Product :=
  { product_id := "SKU-TVS-0002"
    product_name := "Acme Vision-Max 50-inch 4K TV"
    category := "TVs"
    regular_price := 250
    avg_rating := 3
    review_count := 5
    in_stock := "False" }

/-- A one-product catalog. -/
def sampleCatalog : List Product := [sampleProduct]

/-- A one-entry Repeat-User Memory. -/
def sampleMem : List (String × Product) := [("user-7", sampleProduct)]

/-- Concrete event randomness with an in-range sale factor. -/
def sampleEventR : EventR :=
  { eventUuid := 0, onSaleDraw := 1/2, saleFactor := 4/5
    quantityDraw := 0, ratingDraw := 0 }

/-- Concrete browsing-step randomness: product 0, minimal stagger, cart roll
succeeds. -/
def sampleBViewR : BViewR :=
  { productIdx := 0, staggerDraw := 0, cartDraw := 0
    viewR := sampleEventR, cartR := sampleEventR }

/-- Concrete backfill session randomness: one view, cart and checkout rolls
succeed, one item bought, no returns. -/
def sampleBSessionR : BSessionR :=
  { sessionUuid := 1, userNumDraw := 0, sourceIdx := 0, numViewsDraw := 0
    views := fun _ => sampleBViewR
    checkoutDraw := 0, buyCountDraw := 0, sampleIdxs := [0]
    purchaseMins := fun _ => 0, purchaseR := fun _ => sampleEventR
    returnDraws := fun _ => 1/2, returnDays := fun _ => 0
    returnR := fun _ => sampleEventR }

/-- Browsing randomness exhibiting decreasing staggers: view 1 draws a 60 s
stagger, view 2 a 10 s stagger. -/
def cexBViewR (i : ℕ) : BViewR :=
  { productIdx := 0, staggerDraw := if i = 1 then 50 else 0, cartDraw := 1/2
    viewR := sampleEventR, cartR := sampleEventR }

/-- Backfill session randomness with three views at offsets 0 s, 60 s, 20 s
and no cart activity. -/
def cexBSessionR : BSessionR :=
  { sessionUuid := 2, userNumDraw := 0, sourceIdx := 0, numViewsDraw := 2
    views := cexBViewR
    checkoutDraw := 1/2, buyCountDraw := 0, sampleIdxs := []
    purchaseMins := fun _ => 0, purchaseR := fun _ => sampleEventR
    returnDraws := fun _ => 1/2, returnDays := fun _ => 0
    returnR := fun _ => sampleEventR }

/-- Concrete streaming browsing-step randomness. -/
def sampleSViewR : SViewR :=
  { productIdx := 0, cartDraw := 0
    viewR := sampleEventR, cartR := sampleEventR }

/-- Concrete streaming session randomness taking the ordinary browsing path
(the repeat roll fails). -/
def sampleSSessionR : SSessionR :=
  { sessionUuid := 3, sourceIdx := 0, repeatDraw := 1/2, memIdx := 0
    buyDraw := 1/2, repeatEv := sampleEventR, userNumDraw := 0
    numViewsDraw := 0, views := fun _ => sampleSViewR
    abandonIdx := 0, checkoutDraw := 0, buyCountDraw := 0, sampleIdxs := [0]
    purchaseR := fun _ => sampleEventR
    reviewDraw := 1/2, reviewIdx := 0, reviewEv := sampleEventR
    returnDraws := fun _ => 1/2, returnR := fun _ => sampleEventR }

/-- Streaming session randomness taking the repeat-purchase shortcut. -/
def cexSSessionR : SSessionR :=
  { sampleSSessionR with repeatDraw := 0, buyDraw := 0 }

/-- Causal cart ordering within one session's event list: every `purchase` or
`return_item` event is preceded (strictly earlier in emission order) by an
`add_to_cart` event for the same product. -/
def causalOk (evs : List Event) : Prop :=
  ∀ (n : ℕ) (e : Event), evs[n]? = some e →
    e.event_type = .purchase ∨ e.event_type = .return_item →
    ∃ (m : ℕ) (a : Event), m < n ∧ evs[m]? = some a ∧
      a.event_type = .add_to_cart ∧ a.product_id = e.product_id

/-- The timestamps of an event list are monotonically non-decreasing in
emission order. -/
def timestampsMonotone (evs : List Event) : Prop :=
  evs.Chain' (fun a b => a.event_timestamp ≤ b.event_timestamp)

/-! ## List and deque helper lemmas -/

lemma dequeAppend_eq_suffixKeep {α : Type} (c : ℕ) (l : List α) (x : α) :
    dequeAppend c l x = suffixKeep c (l ++ [x]) := rfl

lemma getElem?_some_mem {α : Type} {l : List α} {n : ℕ} {a : α}
    (h : l[n]? = some a) : a ∈ l := by
  obtain ⟨hn, he⟩ := List.getElem?_eq_some.mp h
  exact he ▸ List.getElem_mem hn

lemma getElem?_some_lt {α : Type} {l : List α} {n : ℕ} {a : α}
    (h : l[n]? = some a) : n < l.length :=
  (List.getElem?_eq_some.mp h).1

lemma exists_getElem?_of_mem {α : Type} {l : List α} {a : α} (h : a ∈ l) :
    ∃ n, n < l.length ∧ l[n]? = some a := by
  obtain ⟨n, hn, he⟩ := List.getElem_of_mem h
  exact ⟨n, hn, by simp [List.getElem?_eq_getElem hn, he]⟩

lemma choiceD_mem {α : Type} (l : List α) (i : ℕ) (d : α) (h : l ≠ []) :
    choiceD l i d ∈ l := by
  have hl : 0 < l.length := List.length_pos.mpr h
  have hm : i % l.length < l.length := Nat.mod_lt _ hl
  rw [choiceD, List.getD_eq_getElem l d hm]
  exact List.getElem_mem hm

lemma sampleList_subset {α : Type} (l : List α) (k : ℕ) (idxs : List ℕ) :
    ∀ x ∈ sampleList l k idxs, x ∈ l := by
  intro x hx
  obtain ⟨i, _, hg⟩ := List.mem_filterMap.mp (List.mem_of_mem_take hx)
  exact getElem?_some_mem hg

lemma length_dequeAppend_le {α : Type} (c : ℕ) (l : List α) (x : α) :
    (dequeAppend c l x).length ≤ c := by
  simp only [dequeAppend, List.length_drop, List.length_append,
    List.length_singleton]
  omega

lemma mem_dequeAppend {α : Type} {c : ℕ} {l : List α} {x y : α}
    (h : y ∈ dequeAppend c l x) : y ∈ l ∨ y = x := by
  have := List.mem_of_mem_drop h
  rcases List.mem_append.mp this with h' | h'
  · exact Or.inl h'
  · exact Or.inr (List.mem_singleton.mp h')

lemma suffixKeep_snoc {α : Type} (c : ℕ) (hc : 1 ≤ c) (a : List α) (y : α) :
    suffixKeep c (suffixKeep c a ++ [y]) = suffixKeep c (a ++ [y]) := by
  by_cases h : a.length ≤ c
  · have h0 : a.length - c = 0 := Nat.sub_eq_zero_of_le h
    simp [suffixKeep, h0]
  · push_neg at h
    have h1 : (a.drop (a.length - c)).length = c := by
      rw [List.length_drop]; omega
    unfold suffixKeep
    have h2 : (a.drop (a.length - c) ++ [y]).length - c = 1 := by
      rw [List.length_append, h1, List.length_singleton]; omega
    have h3 : (a ++ [y]).length - c = a.length + 1 - c := by
      rw [List.length_append, List.length_singleton]
    rw [h2, h3,
      List.drop_append_of_le_length (by rw [h1]; exact hc),
      List.drop_drop,
      List.drop_append_of_le_length (by omega : a.length + 1 - c ≤ a.length)]
    have h4 : a.length - c + 1 = a.length + 1 - c := by omega
    rw [h4]

lemma foldl_dequeAppend {α : Type} (c : ℕ) (hc : 1 ≤ c) (init : List α)
    (hinit : init.length ≤ c) (xs : List α) :
    xs.foldl (dequeAppend c) init = suffixKeep c (init ++ xs) := by
  induction xs using List.reverseRecOn with
  | nil =>
    simp [suffixKeep, Nat.sub_eq_zero_of_le hinit]
  | append_singleton xs y ih =>
    rw [List.foldl_append, List.foldl_cons, List.foldl_nil,
      dequeAppend_eq_suffixKeep, ih, suffixKeep_snoc c hc,
      List.append_assoc]

/-! ## Structural lemmas about the backfill session -/

lemma backfillViews_events (catalog : List Product) (sid uid src : String)
    (ts : ℤ) (vr : ℕ → BViewR) (n : ℕ) :
    ∀ e ∈ (backfillViews catalog sid uid src ts vr n).1,
      e.session_id = sid ∧ e.user_id = uid ∧ e.source = src ∧
      (e.event_type = .product_view ∨ e.event_type = .add_to_cart) ∧
      ts ≤ e.event_timestamp ∧
      (catalog ≠ [] → ∃ p ∈ catalog, e.product_id = p.product_id ∧
        (e.event_type = .add_to_cart → p.in_stock = "True")) := by
  induction n with
  | zero => intro e he; simp [backfillViews] at he
  | succ n ih =>
    intro e he
    rw [backfillViews] at he
    simp only [List.mem_append] at he
    rcases he with he | he
    · exact ih e he
    · have hts : ts ≤ ts + (n : ℤ) * (10 + (vr n).staggerDraw % 51 : ℕ) := by
        have : (0 : ℤ) ≤ (n : ℤ) * (10 + (vr n).staggerDraw % 51 : ℕ) := by
          positivity
        omega
      by_cases h1 : (vr n).cartDraw < 2/5
      · by_cases h2 :
          (choiceD catalog (vr n).productIdx dummyProduct).in_stock = "True"
        · simp only [backfillViewStep, if_pos h1, if_pos h2,
            List.mem_cons, List.not_mem_nil, or_false] at he
          rcases he with he | he <;> subst he <;>
            refine ⟨by simp [createEventB], by simp [createEventB],
              by simp [createEventB], by simp [createEventB],
              by simpa [createEventB] using hts, fun hcat => ?_⟩ <;>
            exact ⟨choiceD catalog (vr n).productIdx dummyProduct,
              choiceD_mem catalog _ _ hcat, by simp [createEventB],
              fun _ => h2⟩
        · simp only [backfillViewStep, if_pos h1, if_neg h2,
            List.mem_cons, List.not_mem_nil, or_false] at he
          subst he
          refine ⟨by simp [createEventB], by simp [createEventB],
            by simp [createEventB], by simp [createEventB],
            by simpa [createEventB] using hts, fun hcat => ?_⟩
          exact ⟨choiceD catalog (vr n).productIdx dummyProduct,
            choiceD_mem catalog _ _ hcat, by simp [createEventB],
            by simp [createEventB]⟩
      · simp only [backfillViewStep, if_neg h1,
          List.mem_cons, List.not_mem_nil, or_false] at he
        subst he
        refine ⟨by simp [createEventB], by simp [createEventB],
          by simp [createEventB], by simp [createEventB],
          by simpa [createEventB] using hts, fun hcat => ?_⟩
        exact ⟨choiceD catalog (vr n).productIdx dummyProduct,
          choiceD_mem catalog _ _ hcat, by simp [createEventB],
          by simp [createEventB]⟩

lemma backfillViews_cart (catalog : List Product) (sid uid src : String)
    (ts : ℤ) (vr : ℕ → BViewR) (n : ℕ) :
    ∀ p ∈ (backfillViews catalog sid uid src ts vr n).2,
      p.in_stock = "True" ∧ (catalog ≠ [] → p ∈ catalog) ∧
      ∃ e ∈ (backfillViews catalog sid uid src ts vr n).1,
        e.event_type = .add_to_cart ∧ e.product_id = p.product_id := by
  induction n with
  | zero => intro p hp; simp [backfillViews] at hp
  | succ n ih =>
    intro p hp
    rw [backfillViews] at hp
    simp only [List.mem_append] at hp
    rcases hp with hp | hp
    · obtain ⟨h1, h2, e, he, h3, h4⟩ := ih p hp
      refine ⟨h1, h2, e, ?_, h3, h4⟩
      rw [backfillViews]
      exact List.mem_append.mpr (Or.inl he)
    · by_cases h1 : (vr n).cartDraw < 2/5
      · by_cases h2 :
          (choiceD catalog (vr n).productIdx dummyProduct).in_stock = "True"
        · simp only [backfillViewStep, if_pos h1, if_pos h2,
            List.mem_singleton] at hp
          subst hp
          refine ⟨h2, fun hcat => choiceD_mem catalog _ _ hcat,
            createEventB sid uid src .add_to_cart
              (choiceD catalog (vr n).productIdx dummyProduct)
              (ts + (n : ℤ) * (10 + (vr n).staggerDraw % 51 : ℕ)) (vr n).cartR,
            ?_, by simp [createEventB], by simp [createEventB]⟩
          rw [backfillViews]
          refine List.mem_append.mpr (Or.inr ?_)
          simp [backfillViewStep, h1, h2]
        · simp only [backfillViewStep, if_pos h1, if_neg h2,
            List.not_mem_nil] at hp
      · simp only [backfillViewStep, if_neg h1, List.not_mem_nil] at hp

lemma backfillPurchases_spec (sid uid src : String) (ts : ℤ) (pm : ℕ → ℕ)
    (pr : ℕ → EventR) :
    ∀ (items : List Product) (j : ℕ),
      ∀ e ∈ backfillPurchases sid uid src ts pm pr items j,
        ∃ item k, item ∈ items ∧
          e = createEventB sid uid src .purchase item
            (ts + 60 * (5 + (pm k % 11 : ℕ) : ℤ)) (pr k) := by
  intro items
  induction items with
  | nil => intro j e he; simp [backfillPurchases] at he
  | cons item rest ih =>
    intro j e he
    rw [backfillPurchases] at he
    rcases List.mem_cons.mp he with he | he
    · exact ⟨item, j, List.mem_cons_self _ _, he⟩
    · obtain ⟨item', k, hmem, heq⟩ := ih (j + 1) e he
      exact ⟨item', k, List.mem_cons_of_mem _ hmem, heq⟩

lemma backfillReturns_spec (sid uid src : String) (ts : ℤ) (rd : ℕ → ℚ)
    (rdays : ℕ → ℕ) (rr : ℕ → EventR) :
    ∀ (items : List Product) (j : ℕ),
      ∀ e ∈ backfillReturns sid uid src ts rd rdays rr items j,
        ∃ item k, item ∈ items ∧
          e = createEventB sid uid src .return_item item
            (ts + 86400 * (1 + (rdays k % 5 : ℕ) : ℤ)) (rr k) := by
  intro items
  induction items with
  | nil => intro j e he; simp [backfillReturns] at he
  | cons item rest ih =>
    intro j e he
    rw [backfillReturns] at he
    rcases List.mem_append.mp he with he | he
    · revert he
      split_ifs with h1 <;> intro he <;>
        simp only [List.mem_singleton, List.not_mem_nil] at he
      exact ⟨item, j, List.mem_cons_self _ _, he⟩
    · obtain ⟨item', k, hmem, heq⟩ := ih (j + 1) e he
      exact ⟨item', k, List.mem_cons_of_mem _ hmem, heq⟩

lemma backfillPurchased_subset (catalog : List Product) (r : BSessionR)
    (ts : ℤ) :
    ∀ p ∈ backfillPurchased catalog r ts, p ∈ (backfillVres catalog r ts).2 := by
  intro p hp
  simp only [backfillPurchased] at hp
  split_ifs at hp with h
  · exact sampleList_subset _ _ _ p hp
  · simp at hp

/-! ## Structural lemmas about the streaming session -/

lemma streamViews_events (catalog : List Product) (sid uid src : String)
    (now : ℤ) (vr : ℕ → SViewR) (n : ℕ) :
    ∀ e ∈ (streamViews catalog sid uid src now vr n).1,
      e.session_id = sid ∧ e.user_id = uid ∧ e.source = src ∧
      (e.event_type = .product_view ∨ e.event_type = .add_to_cart ∨
        e.event_type = .add_to_cart_failure) ∧
      (catalog ≠ [] → ∃ p ∈ catalog, e.product_id = p.product_id) := by
  induction n with
  | zero => intro e he; simp [streamViews] at he
  | succ n ih =>
    intro e he
    rw [streamViews] at he
    simp only [List.mem_append] at he
    rcases he with he | he
    · exact ih e he
    · by_cases h1 : (vr n).cartDraw < 2/5
      · by_cases h2 :
          (choiceD catalog (vr n).productIdx dummyProduct).in_stock = "True"
        · simp only [streamViewStep, if_pos h1, if_pos h2,
            List.mem_cons, List.not_mem_nil, or_false] at he
          rcases he with he | he <;> subst he <;>
            exact ⟨by simp [createEventS], by simp [createEventS],
              by simp [createEventS], by simp [createEventS],
              fun hcat => ⟨choiceD catalog (vr n).productIdx dummyProduct,
                choiceD_mem catalog _ _ hcat, by simp [createEventS]⟩⟩
        · simp only [streamViewStep, if_pos h1, if_neg h2,
            List.mem_cons, List.not_mem_nil, or_false] at he
          rcases he with he | he <;> subst he <;>
            exact ⟨by simp [createEventS], by simp [createEventS],
              by simp [createEventS], by simp [createEventS],
              fun hcat => ⟨choiceD catalog (vr n).productIdx dummyProduct,
                choiceD_mem catalog _ _ hcat, by simp [createEventS]⟩⟩
      · simp only [streamViewStep, if_neg h1,
          List.mem_cons, List.not_mem_nil, or_false] at he
        subst he
        exact ⟨by simp [createEventS], by simp [createEventS],
          by simp [createEventS], by simp [createEventS],
          fun hcat => ⟨choiceD catalog (vr n).productIdx dummyProduct,
            choiceD_mem catalog _ _ hcat, by simp [createEventS]⟩⟩

lemma streamViews_cart (catalog : List Product) (sid uid src : String)
    (now : ℤ) (vr : ℕ → SViewR) (n : ℕ) :
    ∀ p ∈ (streamViews catalog sid uid src now vr n).2,
      p.in_stock = "True" ∧ (catalog ≠ [] → p ∈ catalog) ∧
      ∃ e ∈ (streamViews catalog sid uid src now vr n).1,
        e.event_type = .add_to_cart ∧ e.product_id = p.product_id := by
  induction n with
  | zero => intro p hp; simp [streamViews] at hp
  | succ n ih =>
    intro p hp
    rw [streamViews] at hp
    simp only [List.mem_append] at hp
    rcases hp with hp | hp
    · obtain ⟨h1, h2, e, he, h3, h4⟩ := ih p hp
      refine ⟨h1, h2, e, ?_, h3, h4⟩
      rw [streamViews]
      exact List.mem_append.mpr (Or.inl he)
    · by_cases h1 : (vr n).cartDraw < 2/5
      · by_cases h2 :
          (choiceD catalog (vr n).productIdx dummyProduct).in_stock = "True"
        · simp only [streamViewStep, if_pos h1, if_pos h2,
            List.mem_singleton] at hp
          subst hp
          refine ⟨h2, fun hcat => choiceD_mem catalog _ _ hcat,
            createEventS sid uid src .add_to_cart
              (choiceD catalog (vr n).productIdx dummyProduct) now (vr n).cartR,
            ?_, by simp [createEventS], by simp [createEventS]⟩
          rw [streamViews]
          refine List.mem_append.mpr (Or.inr ?_)
          simp [streamViewStep, h1, h2]
        · simp only [streamViewStep, if_pos h1, if_neg h2,
            List.not_mem_nil] at hp
      · simp only [streamViewStep, if_neg h1, List.not_mem_nil] at hp

lemma causalOk_of_decomp (V rest : List Event)
    (hV : ∀ e ∈ V, e.event_type ≠ .purchase ∧ e.event_type ≠ .return_item)
    (hrest : ∀ e ∈ rest,
      e.event_type = .purchase ∨ e.event_type = .return_item →
      ∃ a ∈ V, a.event_type = .add_to_cart ∧ a.product_id = e.product_id) :
    causalOk (V ++ rest) := by
  intro n e hn htype
  by_cases h : n < V.length
  · exfalso
    rw [List.getElem?_append, if_pos h] at hn
    rcases htype with ht | ht
    · exact (hV e (getElem?_some_mem hn)).1 ht
    · exact (hV e (getElem?_some_mem hn)).2 ht
  · push_neg at h
    rw [List.getElem?_append, if_neg (by omega)] at hn
    obtain ⟨a, haV, ha1, ha2⟩ := hrest e (getElem?_some_mem hn) htype
    obtain ⟨m, hm, hma⟩ := exists_getElem?_of_mem haV
    refine ⟨m, a, by omega, ?_, ha1, ha2⟩
    rw [List.getElem?_append, if_pos hm]
    exact hma

lemma streamPurchases_spec (sid uid src : String) (now : ℤ)
    (pr : ℕ → EventR) :
    ∀ (items : List Product) (j : ℕ),
      ∀ e ∈ streamPurchases sid uid src now pr items j,
        ∃ item k, item ∈ items ∧
          e = createEventS sid uid src .purchase item now (pr k) := by
  intro items
  induction items with
  | nil => intro j e he; simp [streamPurchases] at he
  | cons item rest ih =>
    intro j e he
    rw [streamPurchases] at he
    rcases List.mem_cons.mp he with he | he
    · exact ⟨item, j, List.mem_cons_self _ _, he⟩
    · obtain ⟨item', k, hmem, heq⟩ := ih (j + 1) e he
      exact ⟨item', k, List.mem_cons_of_mem _ hmem, heq⟩

lemma streamReturns_spec (sid uid src : String) (now : ℤ) (rd : ℕ → ℚ)
    (rr : ℕ → EventR) :
    ∀ (items : List Product) (j : ℕ),
      ∀ e ∈ streamReturns sid uid src now rd rr items j,
        ∃ item k, item ∈ items ∧
          e = createEventS sid uid src .return_item item now (rr k) := by
  intro items
  induction items with
  | nil => intro j e he; simp [streamReturns] at he
  | cons item rest ih =>
    intro j e he
    rw [streamReturns] at he
    rcases List.mem_append.mp he with he | he
    · revert he
      split_ifs with h1 <;> intro he <;>
        simp only [List.mem_singleton, List.not_mem_nil] at he
      exact ⟨item, j, List.mem_cons_self _ _, he⟩
    · obtain ⟨item', k, hmem, heq⟩ := ih (j + 1) e he
      exact ⟨item', k, List.mem_cons_of_mem _ hmem, heq⟩

/-! ## Causal ordering of the two session generators -/

lemma backfillSession_causal (catalog : List Product) (r : BSessionR)
    (ts : ℤ) : causalOk (backfillSession catalog r ts) := by
  unfold backfillSession
  rw [List.append_assoc]
  apply causalOk_of_decomp
  · intro e he
    obtain ⟨_, _, _, htype, _, _⟩ :=
      backfillViews_events catalog (backfillSid r) (backfillUid r)
        (backfillSrc r) ts r.views (1 + r.numViewsDraw % 10) e he
    rcases htype with ht | ht <;> rw [ht] <;> exact ⟨by simp, by simp⟩
  · intro e he htype
    rcases List.mem_append.mp he with he | he
    · obtain ⟨item, k, hitem, heq⟩ :=
        backfillPurchases_spec _ _ _ _ _ _ _ _ e he
      have hcart := backfillPurchased_subset catalog r ts item hitem
      obtain ⟨_, _, a, haV, ha1, ha2⟩ :=
        backfillViews_cart catalog (backfillSid r) (backfillUid r)
          (backfillSrc r) ts r.views (1 + r.numViewsDraw % 10) item hcart
      exact ⟨a, haV, ha1, by rw [heq]; simpa [createEventB] using ha2⟩
    · obtain ⟨item, k, hitem, heq⟩ :=
        backfillReturns_spec _ _ _ _ _ _ _ _ _ e he
      have hcart := backfillPurchased_subset catalog r ts item hitem
      obtain ⟨_, _, a, haV, ha1, ha2⟩ :=
        backfillViews_cart catalog (backfillSid r) (backfillUid r)
          (backfillSrc r) ts r.views (1 + r.numViewsDraw % 10) item hcart
      exact ⟨a, haV, ha1, by rw [heq]; simpa [createEventB] using ha2⟩

lemma stream_causal_core (catalog : List Product) (sid uid src : String)
    (now : ℤ) (r : SSessionR) (purchased : List Product)
    (hsub : ∀ p ∈ purchased, p ∈ (streamVres catalog sid uid src now r).2) :
    causalOk ((streamVres catalog sid uid src now r).1
      ++ streamPurchases sid uid src now r.purchaseR purchased 0
      ++ streamReviewEvs sid uid src now r purchased
      ++ streamReturns sid uid src now r.returnDraws r.returnR purchased 0) := by
  rw [List.append_assoc, List.append_assoc]
  apply causalOk_of_decomp
  · intro e he
    obtain ⟨_, _, _, htype, _⟩ :=
      streamViews_events catalog sid uid src now r.views
        (1 + r.numViewsDraw % 10) e he
    rcases htype with ht | ht | ht <;> rw [ht] <;> exact ⟨by simp, by simp⟩
  · intro e he htype
    rcases List.mem_append.mp he with he | he
    · obtain ⟨item, k, hitem, heq⟩ := streamPurchases_spec _ _ _ _ _ _ _ e he
      obtain ⟨_, _, a, haV, ha1, ha2⟩ :=
        streamViews_cart catalog sid uid src now r.views
          (1 + r.numViewsDraw % 10) item (hsub item hitem)
      exact ⟨a, haV, ha1, by rw [heq]; simpa [createEventS] using ha2⟩
    · rcases List.mem_append.mp he with he | he
      · exfalso
        unfold streamReviewEvs at he
        split_ifs at he with h1
        · rcases List.mem_singleton.mp he with rfl
          simp [createEventS] at htype
        · simp at he
      · obtain ⟨item, k, hitem, heq⟩ := streamReturns_spec _ _ _ _ _ _ _ _ e he
        obtain ⟨_, _, a, haV, ha1, ha2⟩ :=
          streamViews_cart catalog sid uid src now r.views
            (1 + r.numViewsDraw % 10) item (hsub item hitem)
        exact ⟨a, haV, ha1, by rw [heq]; simpa [createEventS] using ha2⟩

lemma streamBody_causal (catalog : List Product)
    (mem : List (String × Product)) (sid uid src : String) (r : SSessionR)
    (now : ℤ) : causalOk (streamBody catalog mem sid uid src r now).1 := by
  by_cases hc : (streamVres catalog sid uid src now r).2 = []
  · have hbody : (streamBody catalog mem sid uid src r now).1 =
        (streamVres catalog sid uid src now r).1 := by
      simp [streamBody, hc]
    rw [hbody]
    have := stream_causal_core catalog sid uid src now r []
      (by intro p hp; simp at hp)
    simpa [streamPurchases, streamReviewEvs, streamReturns] using this
  · have hbody : (streamBody catalog mem sid uid src r now).1 =
        (streamVres catalog sid uid src now r).1
          ++ streamPurchases sid uid src now r.purchaseR
              (streamPurchased (streamVres catalog sid uid src now r).2 r) 0
          ++ streamReviewEvs sid uid src now r
              (streamPurchased (streamVres catalog sid uid src now r).2 r)
          ++ streamReturns sid uid src now r.returnDraws r.returnR
              (streamPurchased (streamVres catalog sid uid src now r).2 r) 0 := by
      simp [streamBody, hc]
    rw [hbody]
    apply stream_causal_core
    intro p hp
    unfold streamPurchased at hp
    split_ifs at hp with h
    · exact sampleList_subset _ _ _ p hp
    · simp at hp

/-! ## Claim theorems -/

/-- C8: evaluation of the scheduler at the failing weekday.  The code boosts
the session-count sampling range by 1.5 whenever `weekday() >= 4`, which is
Friday, Saturday AND Sunday — three weekdays, although the claim (and the
code's own comment, "on Fridays and Saturdays") designates exactly two surge
weekdays.  Sunday (weekday 6) gets the boosted range [262, 487] instead of
the unboosted [175, 325]. -/
theorem C8_weekend_code_evaluation :
    sessionCountLo 6 = 262 ∧ sessionCountHi 6 = 487 ∧
    sessionCountLo 0 = 175 ∧ sessionCountHi 0 = 325 ∧
    sessionsMultiplier 0 = 1 ∧ sessionsMultiplier 1 = 1 ∧
    sessionsMultiplier 2 = 1 ∧ sessionsMultiplier 3 = 1 ∧
    sessionsMultiplier 4 = 3/2 ∧ sessionsMultiplier 5 = 3/2 ∧
    sessionsMultiplier 6 = 3/2 := by
  refine ⟨?_, ?_, ?_, ?_, ?_, ?_, ?_, ?_, ?_, ?_, ?_⟩ <;>
    norm_num [sessionCountLo, sessionCountHi, sessionsMultiplier,
      AVG_SESSIONS_PER_DAY]

lemma streamBody_snd_length (catalog : List Product)
    (mem : List (String × Product)) (sid uid src : String) (r : SSessionR)
    (now : ℤ) (h : mem.length ≤ 100) :
    ((streamBody catalog mem sid uid src r now).2).length ≤ 100 := by
  by_cases hc : (streamVres catalog sid uid src now r).2 = []
  · simpa [streamBody, hc] using h
  · have : (streamBody catalog mem sid uid src r now).2 =
        dequeAppend 100 mem
          (uid, choiceD (streamVres catalog sid uid src now r).2
            r.abandonIdx dummyProduct) := by
      simp [streamBody, hc]
    rw [this]
    exact length_dequeAppend_le _ _ _

/-- C6: the Repeat-User Memory (a deque with `maxlen=100`) never holds more
than 100 entries after any sequence of appends from empty; an append at
capacity evicts the oldest entry; after 101 insertions the first-inserted
entry is gone and can no longer be returned by `random.choice`; and a
streaming session keeps the memory within capacity. -/
theorem C6_repeat_memory_capacity :
    (∀ (xs : List (String × Product)),
      (xs.foldl (dequeAppend 100) []).length ≤ 100) ∧
    (∀ (l : List (String × Product)) (x : String × Product),
      l.length = 100 → dequeAppend 100 l x = l.tail ++ [x]) ∧
    (∀ (x : String × Product) (xs : List (String × Product)),
      xs.length = 100 → x ∉ xs →
        (x :: xs).foldl (dequeAppend 100) [] = xs ∧
        x ∉ (x :: xs).foldl (dequeAppend 100) [] ∧
        ∀ (i : ℕ) (d : String × Product),
          choiceD ((x :: xs).foldl (dequeAppend 100) []) i d ≠ x) ∧
    (∀ (catalog : List Product) (mem : List (String × Product))
      (r : SSessionR) (now : ℤ), mem.length ≤ 100 →
        ((streamSession catalog mem r now).2).length ≤ 100) := by
  have hfold : ∀ (xs : List (String × Product)),
      xs.foldl (dequeAppend 100) [] = suffixKeep 100 xs := by
    intro xs
    simpa using foldl_dequeAppend 100 (by norm_num) [] (by simp) xs
  refine ⟨?_, ?_, ?_, ?_⟩
  · intro xs
    rw [hfold, suffixKeep, List.length_drop]
    omega
  · intro l x hl
    unfold dequeAppend
    have h1 : (l ++ [x]).length - 100 = 1 := by
      rw [List.length_append, List.length_singleton, hl]
    rw [h1, List.drop_append_of_le_length (by omega), List.drop_one]
  · intro x xs h100 hx
    have heq : (x :: xs).foldl (dequeAppend 100) [] = xs := by
      rw [hfold, suffixKeep]
      simp only [List.length_cons, h100]
      rw [(by norm_num : 100 + 1 - 100 = 1), List.drop_one, List.tail_cons]
    refine ⟨heq, by rw [heq]; exact hx, ?_⟩
    intro i d
    rw [heq]
    intro hcontra
    exact hx (hcontra ▸ choiceD_mem xs i d (by
      intro hnil; rw [hnil] at h100; simp at h100))
  · intro catalog mem r now h
    unfold streamSession
    split_ifs with h1 h2
    · simpa using h
    · exact streamBody_snd_length _ _ _ _ _ _ _ h
    · exact streamBody_snd_length _ _ _ _ _ _ _ h

/-- C6 witness: inserting 101 entries into the empty deque, the first entry
is no longer present. -/
theorem C6_witness :
    (("b", dummyProduct) :: List.replicate 100 ("a", dummyProduct)).foldl
        (dequeAppend 100) [] = List.replicate 100 ("a", dummyProduct) ∧
    ("b", dummyProduct) ∉
      ((("b", dummyProduct) :: List.replicate 100 ("a", dummyProduct)).foldl
        (dequeAppend 100) []) := by
  have h := C6_repeat_memory_capacity.2.2.1 ("b", dummyProduct)
    (List.replicate 100 ("a", dummyProduct)) (by simp)
    (by simp [List.mem_replicate, dummyProduct])
  exact ⟨h.1, h.2.1⟩

/-- C2 counterexample: the claim says `quantity` is absent for
`product_view`/`submit_review` events, but both factories always emit
`quantity` — the `None`-dropping comprehension never removes it because its
value is never `None` — so a `product_view` payload carries `quantity = 1`. -/
theorem C2_counterexample_quantity_present :
    (createEventB "s" "u" "google" .product_view sampleProduct 0
      sampleEventR).quantity = some 1 ∧
    (createEventB "s" "u" "google" .product_view sampleProduct 0
      sampleEventR).quantity ≠ none ∧
    (createEventS "s" "u" "google" .submit_review sampleProduct 0
      sampleEventR).quantity = some 1 := by
  refine ⟨rfl, ?_, rfl⟩
  intro h
  simp [createEventB] at h

/-- C2 (amended): `quantity` is a positive integer in `[1, 3]` for
`add_to_cart`/`purchase` in the backfill variant and exactly `1` in the
streaming variant, exactly `-1` for `return_item` in both; for
`product_view` and `submit_review` it is not absent but present with value
`1` in both variants. -/
theorem C2_amended_quantity (sid uid src : String) (p : Product) (ts : ℤ)
    (r : EventR) :
    (∀ et, et = .add_to_cart ∨ et = .purchase →
      ∃ q : ℤ, (createEventB sid uid src et p ts r).quantity = some q ∧
        1 ≤ q ∧ q ≤ 3) ∧
    (createEventB sid uid src .return_item p ts r).quantity = some (-1) ∧
    (createEventB sid uid src .product_view p ts r).quantity = some 1 ∧
    (createEventB sid uid src .submit_review p ts r).quantity = some 1 ∧
    (∀ et, et ≠ .return_item →
      (createEventS sid uid src et p ts r).quantity = some 1) ∧
    (createEventS sid uid src .return_item p ts r).quantity = some (-1) := by
  refine ⟨?_, by simp [createEventB], by simp [createEventB],
    by simp [createEventB], ?_, by simp [createEventS]⟩
  · intro et het
    refine ⟨((1 + r.quantityDraw % 3 : ℕ) : ℤ), ?_, by omega, by omega⟩
    rcases het with h | h <;> subst h <;> simp [createEventB]
  · intro et het
    cases et <;> simp [createEventS] at het ⊢

/-- C2 witness: the amended bounds instantiated at a concrete `purchase`. -/
theorem C2_witness :
    ∃ q : ℤ, (createEventB "s" "u" "google" .purchase sampleProduct 0
      sampleEventR).quantity = some q ∧ 1 ≤ q ∧ q ≤ 3 :=
  (C2_amended_quantity "s" "u" "google" sampleProduct 0 sampleEventR).1
    .purchase (Or.inr rfl)

lemma createEventB_sale_price (sid uid src : String) (et : EventType)
    (p : Product) (ts : ℤ) (r : EventR) :
    (createEventB sid uid src et p ts r).sale_price =
      if et = .add_to_cart ∨ et = .purchase ∨ et = .return_item then
        some (if r.onSaleDraw < 1/4 then round2 (p.regular_price * r.saleFactor)
          else p.regular_price)
      else none := by
  by_cases hos : r.onSaleDraw < 1/4 <;> simp [createEventB, hos]

lemma createEventB_on_sale (sid uid src : String) (et : EventType)
    (p : Product) (ts : ℤ) (r : EventR) :
    (createEventB sid uid src et p ts r).on_sale = true ↔
      r.onSaleDraw < 1/4 := by
  simp [createEventB]

lemma createEventS_sale_price (sid uid src : String) (et : EventType)
    (p : Product) (now : ℤ) (r : EventR) :
    (createEventS sid uid src et p now r).sale_price =
      if et = .add_to_cart ∨ et = .purchase ∨ et = .return_item then
        some (if r.onSaleDraw < 1/4 then round2 (p.regular_price * r.saleFactor)
          else p.regular_price)
      else none := by
  by_cases hos : r.onSaleDraw < 1/4 <;> simp [createEventS, hos]

lemma createEventS_on_sale (sid uid src : String) (et : EventType)
    (p : Product) (now : ℤ) (r : EventR) :
    (createEventS sid uid src et p now r).on_sale = true ↔
      r.onSaleDraw < 1/4 := by
  simp [createEventS]

/-- C3: in both factories, `sale_price` is present exactly for
`add_to_cart`/`purchase`/`return_item`; when present with `on_sale` true it
is `regular_price` scaled by the `random.uniform(0.7, 0.9)` factor and
rounded to 2 decimals, and with `on_sale` false it is `regular_price`
unchanged. -/
theorem C3_sale_price (sid uid src : String) (p : Product) (ts : ℤ)
    (r : EventR) (hr : r.SaleWF) :
    (∀ et, (createEventB sid uid src et p ts r).sale_price ≠ none ↔
      (et = .add_to_cart ∨ et = .purchase ∨ et = .return_item)) ∧
    (∀ et, (createEventS sid uid src et p ts r).sale_price ≠ none ↔
      (et = .add_to_cart ∨ et = .purchase ∨ et = .return_item)) ∧
    (∀ et q, (createEventB sid uid src et p ts r).sale_price = some q →
      ((createEventB sid uid src et p ts r).on_sale = true →
        ∃ f, 7/10 ≤ f ∧ f ≤ 9/10 ∧ q = round2 (p.regular_price * f)) ∧
      ((createEventB sid uid src et p ts r).on_sale = false →
        q = p.regular_price)) ∧
    (∀ et q, (createEventS sid uid src et p ts r).sale_price = some q →
      ((createEventS sid uid src et p ts r).on_sale = true →
        ∃ f, 7/10 ≤ f ∧ f ≤ 9/10 ∧ q = round2 (p.regular_price * f)) ∧
      ((createEventS sid uid src et p ts r).on_sale = false →
        q = p.regular_price)) := by
  refine ⟨?_, ?_, ?_, ?_⟩
  · intro et
    rw [createEventB_sale_price]
    by_cases hmem : et = .add_to_cart ∨ et = .purchase ∨ et = .return_item
    · rw [if_pos hmem]; simpa using hmem
    · rw [if_neg hmem]; simpa using hmem
  · intro et
    rw [createEventS_sale_price]
    by_cases hmem : et = .add_to_cart ∨ et = .purchase ∨ et = .return_item
    · rw [if_pos hmem]; simpa using hmem
    · rw [if_neg hmem]; simpa using hmem
  · intro et q hq
    rw [createEventB_sale_price] at hq
    by_cases hmem : et = .add_to_cart ∨ et = .purchase ∨ et = .return_item
    · rw [if_pos hmem, Option.some_inj] at hq
      constructor
      · intro htrue
        have hos := (createEventB_on_sale sid uid src et p ts r).mp htrue
        rw [if_pos hos] at hq
        exact ⟨r.saleFactor, hr.1, hr.2, hq.symm⟩
      · intro hfalse
        have hos : ¬ r.onSaleDraw < 1/4 := by
          intro hc
          rw [Bool.eq_false_iff] at hfalse
          exact hfalse ((createEventB_on_sale sid uid src et p ts r).mpr hc)
        rw [if_neg hos] at hq
        exact hq.symm
    · rw [if_neg hmem] at hq
      exact absurd hq (by simp)
  · intro et q hq
    rw [createEventS_sale_price] at hq
    by_cases hmem : et = .add_to_cart ∨ et = .purchase ∨ et = .return_item
    · rw [if_pos hmem, Option.some_inj] at hq
      constructor
      · intro htrue
        have hos := (createEventS_on_sale sid uid src et p ts r).mp htrue
        rw [if_pos hos] at hq
        exact ⟨r.saleFactor, hr.1, hr.2, hq.symm⟩
      · intro hfalse
        have hos : ¬ r.onSaleDraw < 1/4 := by
          intro hc
          rw [Bool.eq_false_iff] at hfalse
          exact hfalse ((createEventS_on_sale sid uid src et p ts r).mpr hc)
        rw [if_neg hos] at hq
        exact hq.symm
    · rw [if_neg hmem] at hq
      exact absurd hq (by simp)

/-- C3 witness: presence of `sale_price` at a concrete `purchase` with an
in-range sale factor. -/
theorem C3_witness :
    (createEventB "s" "u" "google" .purchase sampleProduct 0
      sampleEventR).sale_price ≠ none :=
  ((C3_sale_price "s" "u" "google" sampleProduct 0 sampleEventR
    (by norm_num [EventR.SaleWF, sampleEventR])).1 .purchase).mpr
    (Or.inr (Or.inl rfl))

/-- C1 counterexample: a streaming session that takes the repeat-purchase
shortcut consists of a single `purchase` event with no preceding
`add_to_cart` in the same session, so the claimed invariant fails on it. -/
theorem C1_counterexample_shortcut :
    ¬ causalOk (streamSession sampleCatalog sampleMem cexSSessionR 5).1 := by
  intro h
  have heq : (streamSession sampleCatalog sampleMem cexSSessionR 5).1 =
      [createEventS (streamSid cexSSessionR) "user-7" (streamSrc cexSSessionR)
        .purchase sampleProduct 5 sampleEventR] := by
    norm_num [streamSession, cexSSessionR, sampleSSessionR, sampleMem, choiceD]
  obtain ⟨m, a, hm, _, _, _⟩ :=
    h 0 (createEventS (streamSid cexSSessionR) "user-7" (streamSrc cexSSessionR)
      .purchase sampleProduct 5 sampleEventR) (by rw [heq]; rfl) (Or.inl rfl)
  omega

/-- C1 (amended): in every backfill session, and in every streaming session
that does not take the repeat-purchase shortcut, every `purchase` and
`return_item` event references a product that was the subject of an earlier
`add_to_cart` event in the same session; the shortcut session instead emits
a single `purchase` of a product carted in an earlier session, with no
`add_to_cart` of its own. -/
theorem C1_amended_causal :
    (∀ (catalog : List Product) (r : BSessionR) (ts : ℤ),
      causalOk (backfillSession catalog r ts)) ∧
    (∀ (catalog : List Product) (mem : List (String × Product))
      (r : SSessionR) (now : ℤ), ¬ shortcutTaken mem r →
      causalOk (streamSession catalog mem r now).1) := by
  refine ⟨backfillSession_causal, ?_⟩
  intro catalog mem r now hns
  unfold streamSession
  split_ifs with h1 h2
  · exact absurd ⟨h1.1, h1.2, h2⟩ hns
  · exact streamBody_causal catalog mem (streamSid r)
      (choiceD mem r.memIdx ("", dummyProduct)).1 (streamSrc r) r now
  · exact streamBody_causal catalog mem (streamSid r)
      ("user-" ++ toString (1 + r.userNumDraw % 500)) (streamSrc r) r now

/-- C1 witness: in concrete backfill and streaming sessions whose `purchase`
sits at index 2, the theorem produces the earlier `add_to_cart` for the same
product. -/
theorem C1_witness :
    (∃ (m : ℕ) (a : Event), m < 2 ∧
      (backfillSession sampleCatalog sampleBSessionR 0)[m]? = some a ∧
      a.event_type = .add_to_cart ∧
      a.product_id = sampleProduct.product_id) ∧
    (∃ (m : ℕ) (a : Event), m < 2 ∧
      ((streamSession sampleCatalog [] sampleSSessionR 5).1)[m]? = some a ∧
      a.event_type = .add_to_cart ∧
      a.product_id = sampleProduct.product_id) := by
  constructor
  · have heq : backfillSession sampleCatalog sampleBSessionR 0 =
        [createEventB (backfillSid sampleBSessionR) (backfillUid sampleBSessionR)
          (backfillSrc sampleBSessionR) .product_view sampleProduct 0 sampleEventR,
         createEventB (backfillSid sampleBSessionR) (backfillUid sampleBSessionR)
          (backfillSrc sampleBSessionR) .add_to_cart sampleProduct 0 sampleEventR,
         createEventB (backfillSid sampleBSessionR) (backfillUid sampleBSessionR)
          (backfillSrc sampleBSessionR) .purchase sampleProduct 300 sampleEventR] := by
      norm_num [backfillSession, backfillVres, backfillViews, backfillViewStep,
        backfillPurchased, backfillPurchases, backfillReturns, sampleBSessionR,
        sampleBViewR, sampleCatalog, choiceD, sampleList, sampleProduct]
    obtain ⟨m, a, hm, hma, hat, hap⟩ :=
      C1_amended_causal.1 sampleCatalog sampleBSessionR 0 2
        (createEventB (backfillSid sampleBSessionR) (backfillUid sampleBSessionR)
          (backfillSrc sampleBSessionR) .purchase sampleProduct 300 sampleEventR)
        (by rw [heq]; rfl) (Or.inl rfl)
    exact ⟨m, a, hm, hma, hat, hap.trans rfl⟩
  · have heq : (streamSession sampleCatalog [] sampleSSessionR 5).1 =
        [createEventS (streamSid sampleSSessionR)
          ("user-" ++ toString (1 + sampleSSessionR.userNumDraw % 500))
          (streamSrc sampleSSessionR) .product_view sampleProduct 5 sampleEventR,
         createEventS (streamSid sampleSSessionR)
          ("user-" ++ toString (1 + sampleSSessionR.userNumDraw % 500))
          (streamSrc sampleSSessionR) .add_to_cart sampleProduct 5 sampleEventR,
         createEventS (streamSid sampleSSessionR)
          ("user-" ++ toString (1 + sampleSSessionR.userNumDraw % 500))
          (streamSrc sampleSSessionR) .purchase sampleProduct 5 sampleEventR] := by
      norm_num [streamSession, streamBody, streamVres, streamViews,
        streamViewStep, streamPurchased, streamPurchases, streamReviewEvs,
        streamReturns, sampleSSessionR, sampleSViewR, sampleCatalog, choiceD,
        sampleList, sampleProduct]
    obtain ⟨m, a, hm, hma, hat, hap⟩ :=
      C1_amended_causal.2 sampleCatalog [] sampleSSessionR 5
        (by simp [shortcutTaken]) 2
        (createEventS (streamSid sampleSSessionR)
          ("user-" ++ toString (1 + sampleSSessionR.userNumDraw % 500))
          (streamSrc sampleSSessionR) .purchase sampleProduct 5 sampleEventR)
        (by rw [heq]; rfl) (Or.inl rfl)
    exact ⟨m, a, hm, hma, hat, hap.trans rfl⟩

/-- C7 counterexample: a backfill session whose three `product_view` events
draw staggers of 10 s, 60 s, 10 s gets timestamps 0 s, 60 s, 20 s (offsets
are `i * randint(10, 60)` with an independent draw each iteration), so the
emitted list is not timestamp-sorted. -/
theorem C7_counterexample_nonmonotone :
    ¬ timestampsMonotone (backfillSession sampleCatalog cexBSessionR 0) := by
  have heq : backfillSession sampleCatalog cexBSessionR 0 =
      [createEventB (backfillSid cexBSessionR) (backfillUid cexBSessionR)
        (backfillSrc cexBSessionR) .product_view sampleProduct 0 sampleEventR,
       createEventB (backfillSid cexBSessionR) (backfillUid cexBSessionR)
        (backfillSrc cexBSessionR) .product_view sampleProduct 60 sampleEventR,
       createEventB (backfillSid cexBSessionR) (backfillUid cexBSessionR)
        (backfillSrc cexBSessionR) .product_view sampleProduct 20 sampleEventR] := by
    norm_num [backfillSession, backfillVres, backfillViews, backfillViewStep,
      backfillPurchased, backfillPurchases, backfillReturns, cexBSessionR,
      cexBViewR, sampleCatalog, choiceD, sampleList, sampleProduct]
  rw [heq]
  intro h
  simp only [timestampsMonotone, List.chain'_cons, List.chain'_singleton,
    and_true, createEventB] at h
  omega

/-- C7 (amended): backfill session timestamps are not necessarily
non-decreasing in emission order, but every event's timestamp is at least
the session start timestamp. -/
theorem C7_amended_timestamps (catalog : List Product) (r : BSessionR)
    (ts : ℤ) : ∀ e ∈ backfillSession catalog r ts, ts ≤ e.event_timestamp := by
  intro e he
  unfold backfillSession at he
  rcases List.mem_append.mp he with he | he
  · rcases List.mem_append.mp he with he | he
    · exact (backfillViews_events catalog (backfillSid r) (backfillUid r)
        (backfillSrc r) ts r.views (1 + r.numViewsDraw % 10) e he).2.2.2.2.1
    · obtain ⟨item, k, _, heq⟩ := backfillPurchases_spec _ _ _ _ _ _ _ _ e he
      rw [heq]
      simp only [createEventB]
      omega
  · obtain ⟨item, k, _, heq⟩ := backfillReturns_spec _ _ _ _ _ _ _ _ _ e he
    rw [heq]
    simp only [createEventB]
    omega

/-- C7 witness: the amended bound instantiated at a concrete purchase event
of a concrete backfill session. -/
theorem C7_witness :
    (0 : ℤ) ≤ (createEventB (backfillSid sampleBSessionR)
      (backfillUid sampleBSessionR) (backfillSrc sampleBSessionR) .purchase
      sampleProduct 300 sampleEventR).event_timestamp := by
  apply C7_amended_timestamps sampleCatalog sampleBSessionR 0
  have heq : backfillSession sampleCatalog sampleBSessionR 0 =
      [createEventB (backfillSid sampleBSessionR) (backfillUid sampleBSessionR)
        (backfillSrc sampleBSessionR) .product_view sampleProduct 0 sampleEventR,
       createEventB (backfillSid sampleBSessionR) (backfillUid sampleBSessionR)
        (backfillSrc sampleBSessionR) .add_to_cart sampleProduct 0 sampleEventR,
       createEventB (backfillSid sampleBSessionR) (backfillUid sampleBSessionR)
        (backfillSrc sampleBSessionR) .purchase sampleProduct 300 sampleEventR] := by
    norm_num [backfillSession, backfillVres, backfillViews, backfillViewStep,
      backfillPurchased, backfillPurchases, backfillReturns, sampleBSessionR,
      sampleBViewR, sampleCatalog, choiceD, sampleList, sampleProduct]
  rw [heq]
  simp

lemma streamPurchased_subset (cart : List Product) (r : SSessionR) :
    ∀ p ∈ streamPurchased cart r, p ∈ cart := by
  intro p hp
  unfold streamPurchased at hp
  split_ifs at hp with h
  · exact sampleList_subset _ _ _ p hp
  · simp at hp

lemma streamBody_events (catalog : List Product)
    (mem : List (String × Product)) (sid uid src : String) (r : SSessionR)
    (now : ℤ) :
    ∀ e ∈ (streamBody catalog mem sid uid src r now).1,
      e.session_id = sid ∧ e.user_id = uid ∧ e.source = src ∧
      (catalog ≠ [] → ∃ p ∈ catalog, e.product_id = p.product_id) := by
  intro e he
  have hcart := streamViews_cart catalog sid uid src now r.views
    (1 + r.numViewsDraw % 10)
  by_cases hc : (streamVres catalog sid uid src now r).2 = []
  · rw [(by simp [streamBody, hc] :
      (streamBody catalog mem sid uid src r now).1 =
        (streamVres catalog sid uid src now r).1)] at he
    obtain ⟨h1, h2, h3, _, h5⟩ := streamViews_events catalog sid uid src now
      r.views (1 + r.numViewsDraw % 10) e he
    exact ⟨h1, h2, h3, h5⟩
  · rw [(by simp [streamBody, hc] :
      (streamBody catalog mem sid uid src r now).1 =
        (streamVres catalog sid uid src now r).1
          ++ streamPurchases sid uid src now r.purchaseR
              (streamPurchased (streamVres catalog sid uid src now r).2 r) 0
          ++ streamReviewEvs sid uid src now r
              (streamPurchased (streamVres catalog sid uid src now r).2 r)
          ++ streamReturns sid uid src now r.returnDraws r.returnR
              (streamPurchased (streamVres catalog sid uid src now r).2 r) 0)] at he
    rcases List.mem_append.mp he with he | he
    · rcases List.mem_append.mp he with he | he
      · rcases List.mem_append.mp he with he | he
        · obtain ⟨h1, h2, h3, _, h5⟩ := streamViews_events catalog sid uid src
            now r.views (1 + r.numViewsDraw % 10) e he
          exact ⟨h1, h2, h3, h5⟩
        · obtain ⟨item, k, hitem, heq⟩ :=
            streamPurchases_spec _ _ _ _ _ _ _ e he
          have hincat := (hcart item (streamPurchased_subset _ _ item hitem)).2.1
          refine ⟨by rw [heq]; simp [createEventS], by rw [heq]; simp [createEventS],
            by rw [heq]; simp [createEventS], fun hcat => ?_⟩
          exact ⟨item, hincat hcat, by rw [heq]; simp [createEventS]⟩
      · unfold streamReviewEvs at he
        split_ifs at he with hrev
        · rcases List.mem_singleton.mp he with rfl
          refine ⟨by simp [createEventS], by simp [createEventS],
            by simp [createEventS], fun hcat => ?_⟩
          have hmem := choiceD_mem
            (streamPurchased (streamVres catalog sid uid src now r).2 r)
            r.reviewIdx dummyProduct hrev.1
          have hincat := (hcart _ (streamPurchased_subset _ _ _ hmem)).2.1
          exact ⟨_, hincat hcat, by simp [createEventS]⟩
        · simp at he
    · obtain ⟨item, k, hitem, heq⟩ := streamReturns_spec _ _ _ _ _ _ _ _ e he
      have hincat := (hcart item (streamPurchased_subset _ _ item hitem)).2.1
      refine ⟨by rw [heq]; simp [createEventS], by rw [heq]; simp [createEventS],
        by rw [heq]; simp [createEventS], fun hcat => ?_⟩
      exact ⟨item, hincat hcat, by rw [heq]; simp [createEventS]⟩

lemma backfillSession_events (catalog : List Product) (r : BSessionR)
    (ts : ℤ) :
    ∀ e ∈ backfillSession catalog r ts,
      e.session_id = backfillSid r ∧ e.user_id = backfillUid r ∧
      e.source = backfillSrc r ∧
      e.event_type ≠ .add_to_cart_failure ∧
      (catalog ≠ [] → ∃ p ∈ catalog, e.product_id = p.product_id ∧
        ((e.event_type = .add_to_cart ∨ e.event_type = .purchase ∨
          e.event_type = .return_item) → p.in_stock = "True")) := by
  intro e he
  have hcart := backfillViews_cart catalog (backfillSid r) (backfillUid r)
    (backfillSrc r) ts r.views (1 + r.numViewsDraw % 10)
  unfold backfillSession at he
  rcases List.mem_append.mp he with he | he
  · rcases List.mem_append.mp he with he | he
    · obtain ⟨h1, h2, h3, htype, _, h5⟩ := backfillViews_events catalog
        (backfillSid r) (backfillUid r) (backfillSrc r) ts r.views
        (1 + r.numViewsDraw % 10) e he
      refine ⟨h1, h2, h3, by rcases htype with ht | ht <;> simp [ht],
        fun hcat => ?_⟩
      obtain ⟨p, hp, hpid, hstock⟩ := h5 hcat
      refine ⟨p, hp, hpid, fun hmem => ?_⟩
      rcases htype with ht | ht
      · rcases hmem with hm | hm | hm <;> rw [ht] at hm <;> simp at hm
      · exact hstock ht
    · obtain ⟨item, k, hitem, heq⟩ := backfillPurchases_spec _ _ _ _ _ _ _ _ e he
      have hc := hcart item (backfillPurchased_subset catalog r ts item hitem)
      refine ⟨by rw [heq]; simp [createEventB], by rw [heq]; simp [createEventB],
        by rw [heq]; simp [createEventB], by rw [heq]; simp [createEventB],
        fun hcat => ?_⟩
      exact ⟨item, hc.2.1 hcat, by rw [heq]; simp [createEventB],
        fun _ => hc.1⟩
  · obtain ⟨item, k, hitem, heq⟩ := backfillReturns_spec _ _ _ _ _ _ _ _ _ e he
    have hc := hcart item (backfillPurchased_subset catalog r ts item hitem)
    refine ⟨by rw [heq]; simp [createEventB], by rw [heq]; simp [createEventB],
      by rw [heq]; simp [createEventB], by rw [heq]; simp [createEventB],
      fun hcat => ?_⟩
    exact ⟨item, hc.2.1 hcat, by rw [heq]; simp [createEventB],
      fun _ => hc.1⟩

lemma streamSession_events (catalog : List Product)
    (mem : List (String × Product)) (r : SSessionR) (now : ℤ) :
    ∃ uid, ∀ e ∈ (streamSession catalog mem r now).1,
      e.session_id = streamSid r ∧ e.user_id = uid ∧
      e.source = streamSrc r ∧
      (catalog ≠ [] → (∀ ent ∈ mem, ent.2 ∈ catalog) →
        ∃ p ∈ catalog, e.product_id = p.product_id) := by
  unfold streamSession
  split_ifs with h1 h2
  · refine ⟨(choiceD mem r.memIdx ("", dummyProduct)).1, ?_⟩
    intro e he
    simp only [List.mem_singleton] at he
    subst he
    refine ⟨by simp [createEventS], by simp [createEventS],
      by simp [createEventS], fun hcat hmem => ?_⟩
    exact ⟨(choiceD mem r.memIdx ("", dummyProduct)).2,
      hmem _ (choiceD_mem mem _ _ h1.1), by simp [createEventS]⟩
  · refine ⟨(choiceD mem r.memIdx ("", dummyProduct)).1, ?_⟩
    intro e he
    obtain ⟨ha, hb, hc, hd⟩ := streamBody_events catalog mem (streamSid r)
      (choiceD mem r.memIdx ("", dummyProduct)).1 (streamSrc r) r now e he
    exact ⟨ha, hb, hc, fun hcat _ => hd hcat⟩
  · refine ⟨"user-" ++ toString (1 + r.userNumDraw % 500), ?_⟩
    intro e he
    obtain ⟨ha, hb, hc, hd⟩ := streamBody_events catalog mem (streamSid r)
      ("user-" ++ toString (1 + r.userNumDraw % 500)) (streamSrc r) r now e he
    exact ⟨ha, hb, hc, fun hcat _ => hd hcat⟩

lemma streamSession_mem_preserved (catalog : List Product)
    (mem : List (String × Product)) (r : SSessionR) (now : ℤ)
    (hcat : catalog ≠ []) (hmem : ∀ ent ∈ mem, ent.2 ∈ catalog) :
    ∀ ent ∈ (streamSession catalog mem r now).2, ent.2 ∈ catalog := by
  have hbody : ∀ uid, ∀ ent ∈ (streamBody catalog mem (streamSid r) uid
      (streamSrc r) r now).2, ent.2 ∈ catalog := by
    intro uid ent hent
    by_cases hc : (streamVres catalog (streamSid r) uid (streamSrc r) now r).2 = []
    · rw [(by simp [streamBody, hc] :
        (streamBody catalog mem (streamSid r) uid (streamSrc r) r now).2 = mem)]
        at hent
      exact hmem ent hent
    · rw [(by simp [streamBody, hc] :
        (streamBody catalog mem (streamSid r) uid (streamSrc r) r now).2 =
          dequeAppend 100 mem (uid, choiceD
            (streamVres catalog (streamSid r) uid (streamSrc r) now r).2
            r.abandonIdx dummyProduct))] at hent
      rcases mem_dequeAppend hent with h | h
      · exact hmem ent h
      · rw [h]
        have hin := choiceD_mem
          (streamVres catalog (streamSid r) uid (streamSrc r) now r).2
          r.abandonIdx dummyProduct hc
        exact ((streamViews_cart catalog (streamSid r) uid (streamSrc r) now
          r.views (1 + r.numViewsDraw % 10) _ hin).2.1) hcat
  intro ent hent
  unfold streamSession at hent
  split_ifs at hent with h1 h2
  · exact hmem ent hent
  · exact hbody _ ent hent
  · exact hbody _ ent hent

lemma choiceD_surjective {α : Type} (l : List α) (d : α) :
    ∀ s ∈ l, ∃ i, choiceD l i d = s := by
  intro s hs
  obtain ⟨n, hn, hln⟩ := exists_getElem?_of_mem hs
  refine ⟨n, ?_⟩
  rw [choiceD, Nat.mod_eq_of_lt hn, List.getD_eq_getElem l d hn]
  obtain ⟨h, he⟩ := List.getElem?_eq_some.mp hln
  exact he

lemma sampleBackfillSession_eq :
    backfillSession sampleCatalog sampleBSessionR 0 =
      [createEventB (backfillSid sampleBSessionR) (backfillUid sampleBSessionR)
        (backfillSrc sampleBSessionR) .product_view sampleProduct 0 sampleEventR,
       createEventB (backfillSid sampleBSessionR) (backfillUid sampleBSessionR)
        (backfillSrc sampleBSessionR) .add_to_cart sampleProduct 0 sampleEventR,
       createEventB (backfillSid sampleBSessionR) (backfillUid sampleBSessionR)
        (backfillSrc sampleBSessionR) .purchase sampleProduct 300 sampleEventR] := by
  norm_num [backfillSession, backfillVres, backfillViews, backfillViewStep,
    backfillPurchased, backfillPurchases, backfillReturns, sampleBSessionR,
    sampleBViewR, sampleCatalog, choiceD, sampleList, sampleProduct]

/-- C4: with a loaded (non-empty) catalog and a Repeat-User Memory whose
entries reference catalog products, every event generated by either variant
— including streaming repeat-purchase events drawn from the memory — has a
`product_id` from the catalog's id set, and one streaming session preserves
the memory invariant, so it holds along the whole run. -/
theorem C4_product_id_in_catalog (catalog : List Product) (hc : catalog ≠ []) :
    (∀ (r : BSessionR) (ts : ℤ), ∀ e ∈ backfillSession catalog r ts,
      e.product_id ∈ catalog.map Product.product_id) ∧
    (∀ (mem : List (String × Product)) (r : SSessionR) (now : ℤ),
      (∀ ent ∈ mem, ent.2 ∈ catalog) →
        (∀ e ∈ (streamSession catalog mem r now).1,
          e.product_id ∈ catalog.map Product.product_id) ∧
        (∀ ent ∈ (streamSession catalog mem r now).2, ent.2 ∈ catalog)) := by
  constructor
  · intro r ts e he
    obtain ⟨_, _, _, _, h5⟩ := backfillSession_events catalog r ts e he
    obtain ⟨p, hp, hpid, _⟩ := h5 hc
    rw [hpid]
    exact List.mem_map_of_mem Product.product_id hp
  · intro mem r now hmem
    constructor
    · intro e he
      obtain ⟨uid, hall⟩ := streamSession_events catalog mem r now
      obtain ⟨p, hp, hpid⟩ := (hall e he).2.2.2 hc hmem
      rw [hpid]
      exact List.mem_map_of_mem Product.product_id hp
    · exact streamSession_mem_preserved catalog mem r now hc hmem

/-- C4 witness: the purchase of a concrete backfill session references the
only catalog product. -/
theorem C4_witness :
    (createEventB (backfillSid sampleBSessionR) (backfillUid sampleBSessionR)
      (backfillSrc sampleBSessionR) .purchase sampleProduct 300
      sampleEventR).product_id ∈ sampleCatalog.map Product.product_id := by
  apply (C4_product_id_in_catalog sampleCatalog
    (by simp [sampleCatalog])).1 sampleBSessionR 0
  rw [sampleBackfillSession_eq]
  simp

/-- C5: on an add-to-cart attempt (the 0.40 roll succeeds) for the viewed
product: if `in_stock == 'True'` both variants cart the product and emit
`add_to_cart` after the `product_view`; if not, the streaming variant emits
`add_to_cart_failure` while the backfill variant emits no event at all for
the attempt; consequently a backfill session contains no
`add_to_cart_failure`, and each of its `add_to_cart`/`purchase`/`return_item`
events references an in-stock catalog product. -/
theorem C5_out_of_stock_handling (catalog : List Product) (sid uid src : String)
    (ts now : ℤ) (i : ℕ) (bv : BViewR) (sv : SViewR) :
    (bv.cartDraw < 2/5 →
      (choiceD catalog bv.productIdx dummyProduct).in_stock = "True" →
      (backfillViewStep catalog sid uid src ts i bv).2 =
        [choiceD catalog bv.productIdx dummyProduct] ∧
      (backfillViewStep catalog sid uid src ts i bv).1.map Event.event_type =
        [.product_view, .add_to_cart] ∧
      (backfillViewStep catalog sid uid src ts i bv).1.map Event.product_id =
        [(choiceD catalog bv.productIdx dummyProduct).product_id,
         (choiceD catalog bv.productIdx dummyProduct).product_id]) ∧
    (sv.cartDraw < 2/5 →
      (choiceD catalog sv.productIdx dummyProduct).in_stock = "True" →
      (streamViewStep catalog sid uid src now sv).2 =
        [choiceD catalog sv.productIdx dummyProduct] ∧
      (streamViewStep catalog sid uid src now sv).1.map Event.event_type =
        [.product_view, .add_to_cart] ∧
      (streamViewStep catalog sid uid src now sv).1.map Event.product_id =
        [(choiceD catalog sv.productIdx dummyProduct).product_id,
         (choiceD catalog sv.productIdx dummyProduct).product_id]) ∧
    (sv.cartDraw < 2/5 →
      (choiceD catalog sv.productIdx dummyProduct).in_stock ≠ "True" →
      (streamViewStep catalog sid uid src now sv).2 = [] ∧
      (streamViewStep catalog sid uid src now sv).1.map Event.event_type =
        [.product_view, .add_to_cart_failure]) ∧
    (bv.cartDraw < 2/5 →
      (choiceD catalog bv.productIdx dummyProduct).in_stock ≠ "True" →
      (backfillViewStep catalog sid uid src ts i bv).2 = [] ∧
      (backfillViewStep catalog sid uid src ts i bv).1.map Event.event_type =
        [.product_view]) ∧
    (catalog ≠ [] → ∀ (r : BSessionR) (ts' : ℤ),
      ∀ e ∈ backfillSession catalog r ts',
        e.event_type ≠ .add_to_cart_failure ∧
        ((e.event_type = .add_to_cart ∨ e.event_type = .purchase ∨
          e.event_type = .return_item) →
          ∃ p ∈ catalog, p.in_stock = "True" ∧
            e.product_id = p.product_id)) := by
  refine ⟨?_, ?_, ?_, ?_, ?_⟩
  · intro h1 h2
    simp [backfillViewStep, if_pos h1, if_pos h2, createEventB]
  · intro h1 h2
    simp [streamViewStep, if_pos h1, if_pos h2, createEventS]
  · intro h1 h2
    simp [streamViewStep, if_pos h1, if_neg h2, createEventS]
  · intro h1 h2
    simp [backfillViewStep, if_pos h1, if_neg h2, createEventB]
  · intro hc r ts' e he
    obtain ⟨_, _, _, h4, h5⟩ := backfillSession_events catalog r ts' e he
    refine ⟨h4, fun hmem => ?_⟩
    obtain ⟨p, hp, hpid, hstock⟩ := h5 hc
    exact ⟨p, hp, hstock hmem, hpid⟩

/-- C5 witness: the in-stock and out-of-stock cases evaluated on concrete
products. -/
theorem C5_witness :
    ((backfillViewStep [sampleProduct, sampleProductOut] "s" "u" "google" 0 0
      sampleBViewR).1.map Event.event_type =
        [.product_view, .add_to_cart]) ∧
    ((streamViewStep [sampleProduct, sampleProductOut] "s" "u" "google" 0
      { sampleSViewR with productIdx := 1 }).1.map Event.event_type =
        [.product_view, .add_to_cart_failure]) := by
  constructor
  · exact ((C5_out_of_stock_handling [sampleProduct, sampleProductOut]
      "s" "u" "google" 0 0 0 sampleBViewR sampleSViewR).1
      (by norm_num [sampleBViewR])
      (by simp [choiceD, sampleBViewR, sampleProduct])).2.1
  · exact ((C5_out_of_stock_handling [sampleProduct, sampleProductOut]
      "s" "u" "google" 0 0 0 sampleBViewR
      { sampleSViewR with productIdx := 1 }).2.2.1
      (by norm_num [sampleSViewR])
      (by simp [choiceD, sampleSViewR, sampleProductOut])).2

/-- C9 counterexample: the backfill variant's source list has only four
elements — `organic_search`, a member of the claimed five-element set, is
missing from it, so the two variants do not sample from the same full set. -/
theorem C9_counterexample_backfill_sources :
    "organic_search" ∈ streamSources ∧ "organic_search" ∉ backfillSources ∧
    backfillSources ≠ streamSources := by
  refine ⟨by simp [streamSources], by simp [backfillSources], by
    simp [backfillSources, streamSources]⟩

/-- C9 (amended): every backfill event's source is drawn from the
four-element list `{google, facebook, email, direct}` — `organic_search`
can never occur there — while every streaming event's source is drawn from
the full five-element list, each element of which is reachable by some
draw (and likewise each element of the four-element list in backfill). -/
theorem C9_amended_sources :
    (∀ (catalog : List Product) (r : BSessionR) (ts : ℤ),
      ∀ e ∈ backfillSession catalog r ts,
        e.source ∈ backfillSources ∧ e.source ≠ "organic_search") ∧
    (∀ (catalog : List Product) (mem : List (String × Product))
      (r : SSessionR) (now : ℤ),
      ∀ e ∈ (streamSession catalog mem r now).1, e.source ∈ streamSources) ∧
    (∀ s ∈ streamSources, ∃ i, choiceD streamSources i "google" = s) ∧
    (∀ s ∈ backfillSources, ∃ i, choiceD backfillSources i "google" = s) := by
  refine ⟨?_, ?_, choiceD_surjective _ _, choiceD_surjective _ _⟩
  · intro catalog r ts e he
    have hsrc := (backfillSession_events catalog r ts e he).2.2.1
    have hmem : e.source ∈ backfillSources := by
      rw [hsrc]
      exact choiceD_mem backfillSources _ _ (by simp [backfillSources])
    refine ⟨hmem, fun hcontra => ?_⟩
    rw [hcontra] at hmem
    simp [backfillSources] at hmem
  · intro catalog mem r now e he
    obtain ⟨uid, hall⟩ := streamSession_events catalog mem r now
    rw [(hall e he).2.2.1]
    exact choiceD_mem streamSources _ _ (by simp [streamSources])

/-- C9 witness: `organic_search` is reachable in the streaming variant, and
a concrete backfill event's source is in the four-element list. -/
theorem C9_witness :
    (∃ i, choiceD streamSources i "google" = "organic_search") ∧
    (createEventB (backfillSid sampleBSessionR) (backfillUid sampleBSessionR)
      (backfillSrc sampleBSessionR) .purchase sampleProduct 300
      sampleEventR).source ∈ backfillSources := by
  constructor
  · exact C9_amended_sources.2.2.1 "organic_search" (by simp [streamSources])
  · refine (C9_amended_sources.1 sampleCatalog sampleBSessionR 0 _ ?_).1
    rw [sampleBackfillSession_eq]
    simp

/-- C10: all events of one session share the session id, user id and source
chosen at session start, in both variants. -/
theorem C10_session_constants :
    (∀ (catalog : List Product) (r : BSessionR) (ts : ℤ),
      ∀ e ∈ backfillSession catalog r ts,
        e.session_id = backfillSid r ∧ e.user_id = backfillUid r ∧
        e.source = backfillSrc r) ∧
    (∀ (catalog : List Product) (mem : List (String × Product))
      (r : SSessionR) (now : ℤ),
      ∃ uid, ∀ e ∈ (streamSession catalog mem r now).1,
        e.session_id = streamSid r ∧ e.user_id = uid ∧
        e.source = streamSrc r) := by
  constructor
  · intro catalog r ts e he
    obtain ⟨h1, h2, h3, _, _⟩ := backfillSession_events catalog r ts e he
    exact ⟨h1, h2, h3⟩
  · intro catalog mem r now
    obtain ⟨uid, hall⟩ := streamSession_events catalog mem r now
    exact ⟨uid, fun e he =>
      ⟨(hall e he).1, (hall e he).2.1, (hall e he).2.2.1⟩⟩

/-- C10 witness: the concrete backfill purchase event carries the session's
id, user and source. -/
theorem C10_witness :
    (createEventB (backfillSid sampleBSessionR) (backfillUid sampleBSessionR)
      (backfillSrc sampleBSessionR) .purchase sampleProduct 300
      sampleEventR).session_id = backfillSid sampleBSessionR ∧
    (createEventB (backfillSid sampleBSessionR) (backfillUid sampleBSessionR)
      (backfillSrc sampleBSessionR) .purchase sampleProduct 300
      sampleEventR).user_id = backfillUid sampleBSessionR ∧
    (createEventB (backfillSid sampleBSessionR) (backfillUid sampleBSessionR)
      (backfillSrc sampleBSessionR) .purchase sampleProduct 300
      sampleEventR).source = backfillSrc sampleBSessionR := by
  refine C10_session_constants.1 sampleCatalog sampleBSessionR 0 _ ?_
  rw [sampleBackfillSession_eq]
  simp
